import Mathlib

/-!
Verification of the marladona-isaac-lab play script and value plotter.

Shallow embedding of `scripts/rsl_rl/play.py` and
`source/isaaclab_marl/isaaclab_marl/utils/value_plotter.py`.
Real-valued tensors are modelled as lists of rationals; the grid shapes are
tracked through list lengths.
-/

namespace MarlaDona

/-- Constant `RESOLUTION = 80` from `value_plotter.py`. -/
def RESOLUTION : ℕ := 80

/-- Constant `SCALING = 0.6` from `value_plotter.py`. -/
def SCALING : ℚ := 6/10

/-- Model of `np.max` over a nonempty list (0 on the empty list, which numpy rejects). -/
def npMax : List ℚ → ℚ
  | [] => 0
  | x :: xs => xs.foldl max x

/-- Model of `np.min` over a nonempty list (0 on the empty list, which numpy rejects). -/
def npMin : List ℚ → ℚ
  | [] => 0
  | x :: xs => xs.foldl min x

/-- The per-grid body of `prepare_value_fun_plot` (play.py lines 131-134):
`(z - min_value) / (max_value - min_value)` applied cell-wise, with
`max_value = np.max z` and `min_value = np.min z`.  The reshape to
`RESOLUTION × RESOLUTION` does not change cell values and is left implicit. -/
def normalizeGrid (v : List ℚ) : List ℚ :=
  v.map (fun z => (z - npMin v) / (npMax v - npMin v))

/-- Model of `prepare_value_fun_plot(values, num_of_players)` (play.py lines 128-135):
`values` is the column list produced by `compute_all_value_fun`; each of the
`num_of_players * len(PLOT_VALUE_FUNC_LIST)` columns is min-max scaled. -/
def prepare_value_fun_plot (values : List (List ℚ)) (num_of_players num_value_funcs : ℕ) :
    List (List ℚ) :=
  (List.range (num_of_players * num_value_funcs)).map (fun j => normalizeGrid values[j]!)

/- ### Helper lemmas about `npMax` / `npMin` -/

theorem foldl_max_le {b : ℚ} : ∀ (l : List ℚ) (a : ℚ), a ≤ b → (∀ x ∈ l, x ≤ b) →
    l.foldl max a ≤ b
  | [], a, ha, _ => ha
  | x :: xs, a, ha, hl => by
    refine foldl_max_le xs (max a x) ?_ ?_
    · exact max_le ha (hl x (by simp))
    · intro y hy; exact hl y (by simp [hy])

theorem le_foldl_max : ∀ (l : List ℚ) (a : ℚ), a ≤ l.foldl max a
  | [], _ => le_refl _
  | x :: xs, a => le_trans (le_max_left a x) (le_foldl_max xs (max a x))

theorem mem_le_foldl_max : ∀ (l : List ℚ) (a : ℚ), ∀ x ∈ l, x ≤ l.foldl max a
  | _ :: xs, a, x, hx => by
    rcases List.mem_cons.mp hx with h | h
    · subst h; exact le_trans (le_max_right a x) (le_foldl_max xs _)
    · exact mem_le_foldl_max xs _ x h

theorem le_foldl_min {b : ℚ} : ∀ (l : List ℚ) (a : ℚ), b ≤ a → (∀ x ∈ l, b ≤ x) →
    b ≤ l.foldl min a
  | [], a, ha, _ => ha
  | x :: xs, a, ha, hl => by
    refine le_foldl_min xs (min a x) ?_ ?_
    · exact le_min ha (hl x (by simp))
    · intro y hy; exact hl y (by simp [hy])

theorem foldl_min_le : ∀ (l : List ℚ) (a : ℚ), l.foldl min a ≤ a
  | [], _ => le_refl _
  | x :: xs, a => le_trans (foldl_min_le xs (min a x)) (min_le_left a x)

theorem foldl_min_le_mem : ∀ (l : List ℚ) (a : ℚ), ∀ x ∈ l, l.foldl min a ≤ x
  | _ :: xs, a, x, hx => by
    rcases List.mem_cons.mp hx with h | h
    · subst h; exact le_trans (foldl_min_le xs _) (min_le_right a x)
    · exact foldl_min_le_mem xs _ x h

theorem le_npMax {v : List ℚ} {x : ℚ} (hx : x ∈ v) : x ≤ npMax v := by
  cases v with
  | nil => cases hx
  | cons a l =>
    rcases List.mem_cons.mp hx with h | h
    · subst h; exact le_foldl_max l x
    · exact mem_le_foldl_max l a x h

theorem npMin_le {v : List ℚ} {x : ℚ} (hx : x ∈ v) : npMin v ≤ x := by
  cases v with
  | nil => cases hx
  | cons a l =>
    rcases List.mem_cons.mp hx with h | h
    · subst h; exact foldl_min_le l x
    · exact foldl_min_le_mem l a x h

theorem npMax_le {v : List ℚ} {b : ℚ} (hne : v ≠ []) (h : ∀ x ∈ v, x ≤ b) :
    npMax v ≤ b := by
  cases v with
  | nil => exact absurd rfl hne
  | cons a l =>
    exact foldl_max_le l a (h a (by simp)) (fun x hx => h x (by simp [hx]))

theorem le_npMin {v : List ℚ} {b : ℚ} (hne : v ≠ []) (h : ∀ x ∈ v, b ≤ x) :
    b ≤ npMin v := by
  cases v with
  | nil => exact absurd rfl hne
  | cons a l =>
    exact le_foldl_min l a (h a (by simp)) (fun x hx => h x (by simp [hx]))

theorem npMax_eq_of {v : List ℚ} {b : ℚ} (hb : b ∈ v) (h : ∀ x ∈ v, x ≤ b) :
    npMax v = b :=
  le_antisymm (npMax_le (List.ne_nil_of_mem hb) h) (le_npMax hb)

theorem npMin_eq_of {v : List ℚ} {b : ℚ} (hb : b ∈ v) (h : ∀ x ∈ v, b ≤ x) :
    npMin v = b :=
  le_antisymm (npMin_le hb) (le_npMin (List.ne_nil_of_mem hb) h)

theorem npMax_replicate (n : ℕ) (hn : 0 < n) (c : ℚ) :
    npMax (List.replicate n c) = c :=
  npMax_eq_of (List.mem_replicate.mpr ⟨Nat.pos_iff_ne_zero.mp hn, rfl⟩)
    (fun x hx => le_of_eq (List.eq_of_mem_replicate hx))

theorem npMin_replicate (n : ℕ) (hn : 0 < n) (c : ℚ) :
    npMin (List.replicate n c) = c :=
  npMin_eq_of (List.mem_replicate.mpr ⟨Nat.pos_iff_ne_zero.mp hn, rfl⟩)
    (fun x hx => ge_of_eq (List.eq_of_mem_replicate hx))

theorem normalizeGrid_length (v : List ℚ) : (normalizeGrid v).length = v.length := by
  simp [normalizeGrid]

theorem normalizeGrid_getElem (v : List ℚ) (i : ℕ) (hi : i < v.length) :
    (normalizeGrid v)[i]! = (v[i]! - npMin v) / (npMax v - npMin v) := by
  have hi2 : i < (normalizeGrid v).length := by rw [normalizeGrid_length]; exact hi
  rw [getElem!_pos (normalizeGrid v) i hi2, getElem!_pos v i hi]
  simp [normalizeGrid]

/-- C1: for every value-grid vector `v` of length `RESOLUTION²` with
`max(v) > min(v)`, the min-max normalization of `prepare_value_fun_plot`
keeps every cell in `[0,1]`, sends every cell holding the maximum to `1`,
and every cell holding the minimum to `0`. -/
theorem normalizeGrid_bounds_and_extremes (v : List ℚ)
    (hlen : v.length = RESOLUTION ^ 2) (h : npMin v < npMax v) :
    (∀ z ∈ normalizeGrid v, 0 ≤ z ∧ z ≤ 1) ∧
    (∀ i, i < v.length → v[i]! = npMax v → (normalizeGrid v)[i]! = 1) ∧
    (∀ i, i < v.length → v[i]! = npMin v → (normalizeGrid v)[i]! = 0) := by
  have hpos : 0 < npMax v - npMin v := sub_pos.mpr h
  refine ⟨?_, ?_, ?_⟩
  · intro z hz
    rw [normalizeGrid, List.mem_map] at hz
    obtain ⟨x, hx, rfl⟩ := hz
    constructor
    · exact div_nonneg (sub_nonneg.mpr (npMin_le hx)) hpos.le
    · exact (div_le_one hpos).mpr (sub_le_sub_right (le_npMax hx) _)
  · intro i hi hmax
    rw [normalizeGrid_getElem v i hi, hmax]
    exact div_self (ne_of_gt hpos)
  · intro i hi hmin
    rw [normalizeGrid_getElem v i hi, hmin, sub_self, zero_div]

/-- Witness for C1: the concrete grid `1 :: 0, 0, …, 0` of length 6400. -/
theorem normalizeGrid_bounds_and_extremes_witness :
    (1 :: List.replicate 6399 (0:ℚ)).length = RESOLUTION ^ 2 ∧
    npMin (1 :: List.replicate 6399 (0:ℚ)) < npMax (1 :: List.replicate 6399 (0:ℚ)) ∧
    ((∀ z ∈ normalizeGrid (1 :: List.replicate 6399 (0:ℚ)), 0 ≤ z ∧ z ≤ 1) ∧
     (∀ i, i < (1 :: List.replicate 6399 (0:ℚ)).length →
        (1 :: List.replicate 6399 (0:ℚ))[i]! = npMax (1 :: List.replicate 6399 (0:ℚ)) →
        (normalizeGrid (1 :: List.replicate 6399 (0:ℚ)))[i]! = 1) ∧
     (∀ i, i < (1 :: List.replicate 6399 (0:ℚ)).length →
        (1 :: List.replicate 6399 (0:ℚ))[i]! = npMin (1 :: List.replicate 6399 (0:ℚ)) →
        (normalizeGrid (1 :: List.replicate 6399 (0:ℚ)))[i]! = 0)) := by
  have hmax : npMax (1 :: List.replicate 6399 (0:ℚ)) = 1 := by
    refine npMax_eq_of (List.mem_cons_self _ _) ?_
    intro x hx
    rcases List.mem_cons.mp hx with h | h
    · exact le_of_eq h
    · rw [List.eq_of_mem_replicate h]; norm_num
  have hmin : npMin (1 :: List.replicate 6399 (0:ℚ)) = 0 := by
    refine npMin_eq_of (List.mem_cons.mpr (Or.inr (List.mem_replicate.mpr ⟨by norm_num, rfl⟩))) ?_
    intro x hx
    rcases List.mem_cons.mp hx with h | h
    · rw [h]; norm_num
    · rw [List.eq_of_mem_replicate h]
  have hlen : (1 :: List.replicate 6399 (0:ℚ)).length = RESOLUTION ^ 2 := by
    simp only [List.length_cons, List.length_replicate, RESOLUTION]
    norm_num
  have hlt : npMin (1 :: List.replicate 6399 (0:ℚ)) < npMax (1 :: List.replicate 6399 (0:ℚ)) := by
    rw [hmax, hmin]; norm_num
  exact ⟨hlen, hlt, normalizeGrid_bounds_and_extremes _ hlen hlt⟩

/-- C6: on any constant value grid (`max == min`) the normalization of
`prepare_value_fun_plot` has no branch for the degenerate range: the
division is still applied cell-wise, with a denominator equal to zero. -/
theorem normalizeGrid_constant_zero_denominator (c : ℚ) (n : ℕ) (hn : 0 < n) :
    npMax (List.replicate n c) - npMin (List.replicate n c) = 0 ∧
    normalizeGrid (List.replicate n c) =
      (List.replicate n c).map (fun z => (z - c) / 0) := by
  have hmax := npMax_replicate n hn c
  have hmin := npMin_replicate n hn c
  refine ⟨by rw [hmax, hmin, sub_self], ?_⟩
  simp only [normalizeGrid, hmax, hmin, sub_self]

/-- Witness for C6: the constant grid of 6400 cells all equal to 5. -/
theorem normalizeGrid_constant_zero_denominator_witness :
    0 < RESOLUTION ^ 2 ∧
    (npMax (List.replicate (RESOLUTION ^ 2) (5:ℚ)) -
       npMin (List.replicate (RESOLUTION ^ 2) (5:ℚ)) = 0 ∧
     normalizeGrid (List.replicate (RESOLUTION ^ 2) (5:ℚ)) =
       (List.replicate (RESOLUTION ^ 2) (5:ℚ)).map (fun z => (z - 5) / 0)) := by
  have hn : 0 < RESOLUTION ^ 2 := by norm_num [RESOLUTION]
  exact ⟨hn, normalizeGrid_constant_zero_denominator 5 (RESOLUTION ^ 2) hn⟩

/- ### The consumer's timer callback (`ValuePlotter.call_back`) -/

/-- The drain loop of `ValuePlotter.call_back` (value_plotter.py lines 365-371):
`while not queue.empty(): item = queue.get(); if item is None: terminate(); break;
last_item = item`.  The queue content is a list of `Option Msg`
(`Option.none` is the `None` sentinel); the accumulator is `last_item`.
Returns `(last_item, terminate was called, items left in the queue)`. -/
def drainQueue {Msg : Type} : List (Option Msg) → Option Msg →
    Option Msg × Bool × List (Option Msg)
  | [], last => (last, false, [])
  | Option.none :: rest, last => (last, true, rest)
  | Option.some m :: rest, _ => drainQueue rest (Option.some m)

/-- Result of one invocation of `ValuePlotter.call_back`:
`rendered = Option.some msg` exactly when the callback ends with
`plot_value_fun` being invoked on `msg` (value_plotter.py lines 372-374),
`terminated = true` exactly when `terminate()` (i.e. `plt.close("all")`)
ran during this invocation. -/
structure CallBackResult (Msg : Type) where
  rendered : Option Msg
  terminated : Bool
  remaining : List (Option Msg)
deriving DecidableEq

/-- Model of `ValuePlotter.call_back` (value_plotter.py lines 363-375) on a queue
holding `queue` at the moment the timer fires, assuming no concurrent push. -/
def call_back {Msg : Type} (queue : List (Option Msg)) : CallBackResult Msg :=
  let r := drainQueue queue Option.none
  { rendered := r.1, terminated := r.2.1, remaining := r.2.2 }

theorem drainQueue_map_some {Msg : Type} :
    ∀ (msgs : List Msg) (acc : Option Msg) (h : msgs ≠ []),
      drainQueue (msgs.map Option.some) acc =
        (Option.some (msgs.getLast h), false, [])
  | [m], _, _ => rfl
  | m :: m2 :: rest, acc, _ => by
    show drainQueue ((m2 :: rest).map Option.some) (Option.some m) = _
    rw [drainQueue_map_some (m2 :: rest) (Option.some m) (by simp)]
    simp [List.getLast_cons]

/-- C2: a burst of `M` non-sentinel messages drained by one callback
invocation renders exactly the last pushed message, no earlier one is
rendered, the queue is fully drained, and the plotter is not terminated. -/
theorem call_back_renders_last (Msg : Type) (msgs : List Msg) (h : msgs ≠ []) :
    (call_back (msgs.map Option.some)).rendered = Option.some (msgs.getLast h) ∧
    (call_back (msgs.map Option.some)).terminated = false ∧
    (call_back (msgs.map Option.some)).remaining = [] := by
  unfold call_back
  rw [drainQueue_map_some msgs Option.none h]
  exact ⟨rfl, rfl, rfl⟩

/-- Witness for C2: the burst `[1, 2, 3]` renders `3`. -/
theorem call_back_renders_last_witness :
    ([1, 2, 3] : List ℕ) ≠ [] ∧
    ((call_back (([1, 2, 3] : List ℕ).map Option.some)).rendered =
       Option.some (([1, 2, 3] : List ℕ).getLast (by simp)) ∧
     (call_back (([1, 2, 3] : List ℕ).map Option.some)).terminated = false ∧
     (call_back (([1, 2, 3] : List ℕ).map Option.some)).remaining = []) :=
  ⟨by simp, call_back_renders_last ℕ [1, 2, 3] (by simp)⟩

/-- C3: exhibit of the code's behaviour on the queue `[message 0, sentinel]`:
`terminate()` runs (the renderer reaches `Terminated` and `plt.close("all")`
releases the figures), but the same callback invocation then still calls
`plot_value_fun` on message `0` — a draw call after the sentinel was
received, contradicting the claim that no draw call happens afterwards. -/
theorem call_back_draws_after_sentinel :
    (call_back [Option.some (0 : ℕ), Option.none]).terminated = true ∧
    (call_back [Option.some (0 : ℕ), Option.none]).rendered = Option.some 0 :=
  ⟨rfl, rfl⟩

/- ### The spatial sampling grid built in `ValuePlotter.__init__` -/

/-- Constant `NORMALIZE_EVALUATOR = False` from `value_plotter.py` line 16.  The grid
definitions below take the flag as a parameter so that both branches of the
`if NORMALIZE_EVALUATOR` in `__init__` can be stated. -/
def NORMALIZE_EVALUATOR : Bool := false

/-- Constant `border_offset = 0.5` (value_plotter.py line 125). -/
def border_offset : ℚ := 1/2

/-- Constant `field_length = 4.5 * SCALING` (value_plotter.py line 126). -/
def field_length : ℚ := 9/2 * SCALING

/-- Constant `field_width = 3 * SCALING` (value_plotter.py line 127). -/
def field_width : ℚ := 3 * SCALING

/-- Model of `np.linspace a b n` (endpoint included): element `i` is
`a + (b - a) * i / (n - 1)`. -/
def linspace (a b : ℚ) (n : ℕ) : List ℚ :=
  (List.range n).map (fun i : ℕ => a + (b - a) * (i : ℚ) / ((n : ℚ) - 1))

/-- The first `np.linspace` argument of the `np.meshgrid` call
(value_plotter.py lines 130-136): the y-axis coordinates. -/
def yLinspace (normalize : Bool) : List ℚ :=
  if normalize then linspace (-1) 1 RESOLUTION
  else linspace (-(3 + border_offset) * SCALING) ((3 + border_offset) * SCALING) RESOLUTION

/-- The second `np.linspace` argument of the `np.meshgrid` call
(value_plotter.py lines 130-136): the x-axis coordinates. -/
def xLinspace (normalize : Bool) : List ℚ :=
  if normalize then linspace (-1) 1 RESOLUTION
  else linspace (-(9/2 + border_offset) * SCALING) ((9/2 + border_offset) * SCALING) RESOLUTION

/-- Grid `self.x`, the second output of `y, x = np.meshgrid(ylin, xlin)`, flattened
row-major: `x[i, j] = xlin[i]`. -/
def meshX (normalize : Bool) : List ℚ :=
  (xLinspace normalize).flatMap (fun xi => List.replicate RESOLUTION xi)

/-- Grid `self.y`, the first output of `y, x = np.meshgrid(ylin, xlin)`, flattened
row-major: `y[i, j] = ylin[j]`. -/
def meshY (normalize : Bool) : List ℚ :=
  (xLinspace normalize).flatMap (fun _ => yLinspace normalize)

/- ### Helper lemmas for grid extrema -/

theorem foldl_max_mem : ∀ (l : List ℚ) (a : ℚ), l.foldl max a ∈ a :: l
  | [], _ => by simp
  | x :: xs, a => by
    have h := foldl_max_mem xs (max a x)
    rw [List.foldl_cons]
    rcases List.mem_cons.mp h with h1 | h1
    · rw [h1]
      rcases max_choice a x with hc | hc <;> rw [hc] <;> simp
    · exact List.mem_cons.mpr (Or.inr (List.mem_cons.mpr (Or.inr h1)))

theorem foldl_min_mem : ∀ (l : List ℚ) (a : ℚ), l.foldl min a ∈ a :: l
  | [], _ => by simp
  | x :: xs, a => by
    have h := foldl_min_mem xs (min a x)
    rw [List.foldl_cons]
    rcases List.mem_cons.mp h with h1 | h1
    · rw [h1]
      rcases min_choice a x with hc | hc <;> rw [hc] <;> simp
    · exact List.mem_cons.mpr (Or.inr (List.mem_cons.mpr (Or.inr h1)))

theorem npMax_mem {v : List ℚ} (h : v ≠ []) : npMax v ∈ v := by
  cases v with
  | nil => exact absurd rfl h
  | cons a l => exact foldl_max_mem l a

theorem npMin_mem {v : List ℚ} (h : v ≠ []) : npMin v ∈ v := by
  cases v with
  | nil => exact absurd rfl h
  | cons a l => exact foldl_min_mem l a

theorem npMax_flatMap_replicate (xs : List ℚ) (n : ℕ) (hn : 0 < n) (hxs : xs ≠ []) :
    npMax (xs.flatMap (fun v => List.replicate n v)) = npMax xs := by
  refine npMax_eq_of ?_ ?_
  · exact List.mem_flatMap.mpr ⟨npMax xs, npMax_mem hxs,
      List.mem_replicate.mpr ⟨Nat.pos_iff_ne_zero.mp hn, rfl⟩⟩
  · intro x hx
    obtain ⟨v, hv, hxv⟩ := List.mem_flatMap.mp hx
    rw [List.eq_of_mem_replicate hxv]
    exact le_npMax hv

theorem npMin_flatMap_replicate (xs : List ℚ) (n : ℕ) (hn : 0 < n) (hxs : xs ≠ []) :
    npMin (xs.flatMap (fun v => List.replicate n v)) = npMin xs := by
  refine npMin_eq_of ?_ ?_
  · exact List.mem_flatMap.mpr ⟨npMin xs, npMin_mem hxs,
      List.mem_replicate.mpr ⟨Nat.pos_iff_ne_zero.mp hn, rfl⟩⟩
  · intro x hx
    obtain ⟨v, hv, hxv⟩ := List.mem_flatMap.mp hx
    rw [List.eq_of_mem_replicate hxv]
    exact npMin_le hv

theorem npMax_flatMap_const (xs row : List ℚ) (hxs : xs ≠ []) (hrow : row ≠ []) :
    npMax (xs.flatMap (fun _ => row)) = npMax row := by
  refine npMax_eq_of ?_ ?_
  · obtain ⟨x, hx⟩ := List.exists_mem_of_ne_nil xs hxs
    exact List.mem_flatMap.mpr ⟨x, hx, npMax_mem hrow⟩
  · intro x hx
    obtain ⟨v, _, hxv⟩ := List.mem_flatMap.mp hx
    exact le_npMax hxv

theorem npMin_flatMap_const (xs row : List ℚ) (hxs : xs ≠ []) (hrow : row ≠ []) :
    npMin (xs.flatMap (fun _ => row)) = npMin row := by
  refine npMin_eq_of ?_ ?_
  · obtain ⟨x, hx⟩ := List.exists_mem_of_ne_nil xs hxs
    exact List.mem_flatMap.mpr ⟨x, hx, npMin_mem hrow⟩
  · intro x hx
    obtain ⟨v, _, hxv⟩ := List.mem_flatMap.mp hx
    exact npMin_le hxv

theorem linspace_length (a b : ℚ) (n : ℕ) : (linspace a b n).length = n := by
  rw [linspace, List.length_map, List.length_range]

theorem linspace_ne_nil (a b : ℚ) (n : ℕ) (hn : 0 < n) : linspace a b n ≠ [] := by
  intro h
  have hl := linspace_length a b n
  rw [h] at hl
  simp at hl
  omega

theorem npMax_linspace (a b : ℚ) (n : ℕ) (hn : 2 ≤ n) (hab : a ≤ b) :
    npMax (linspace a b n) = b := by
  have hn1 : (0:ℚ) < (n : ℚ) - 1 := by
    have h2 : (2:ℚ) ≤ (n : ℚ) := by exact_mod_cast hn
    linarith
  have hcast : ((n - 1 : ℕ) : ℚ) = (n : ℚ) - 1 := by
    have h1 : 1 ≤ n := by omega
    push_cast [h1]
    ring
  refine npMax_eq_of ?_ ?_
  · rw [linspace]
    refine List.mem_map.mpr ⟨n - 1, List.mem_range.mpr (by omega), ?_⟩
    rw [hcast, mul_div_assoc, div_self (ne_of_gt hn1)]
    ring
  · intro x hx
    rw [linspace] at hx
    obtain ⟨i, hi, rfl⟩ := List.mem_map.mp hx
    have hin : i < n := List.mem_range.mp hi
    have hile : (i : ℚ) ≤ (n : ℚ) - 1 := by
      have h3 : ((i : ℕ) : ℚ) ≤ ((n - 1 : ℕ) : ℚ) := by
        exact_mod_cast Nat.le_sub_one_of_lt hin
      rw [hcast] at h3
      exact h3
    have hba : 0 ≤ b - a := sub_nonneg.mpr hab
    have hkey : (b - a) * (i : ℚ) / ((n : ℚ) - 1) ≤ b - a := by
      rw [div_le_iff₀ hn1]
      exact mul_le_mul_of_nonneg_left hile hba
    linarith

theorem npMin_linspace (a b : ℚ) (n : ℕ) (hn : 2 ≤ n) (hab : a ≤ b) :
    npMin (linspace a b n) = a := by
  have hn1 : (0:ℚ) < (n : ℚ) - 1 := by
    have h2 : (2:ℚ) ≤ (n : ℚ) := by exact_mod_cast hn
    linarith
  refine npMin_eq_of ?_ ?_
  · rw [linspace]
    refine List.mem_map.mpr ⟨0, List.mem_range.mpr (by omega), ?_⟩
    simp
  · intro x hx
    rw [linspace] at hx
    obtain ⟨i, hi, rfl⟩ := List.mem_map.mp hx
    have hba : 0 ≤ b - a := sub_nonneg.mpr hab
    have hnum : 0 ≤ (b - a) * (i : ℚ) := mul_nonneg hba (Nat.cast_nonneg i)
    have hdiv : 0 ≤ (b - a) * (i : ℚ) / ((n : ℚ) - 1) := div_nonneg hnum hn1.le
    linarith

theorem xLinspace_false_eq : xLinspace false = linspace (-3) 3 RESOLUTION := by
  have h1 : -(9/2 + border_offset) * SCALING = -3 := by
    norm_num [border_offset, SCALING]
  have h2 : (9/2 + border_offset) * SCALING = 3 := by
    norm_num [border_offset, SCALING]
  rw [xLinspace]
  simp only [Bool.false_eq_true, if_false, h1, h2]

theorem yLinspace_false_eq : yLinspace false = linspace (-(21/10)) (21/10) RESOLUTION := by
  have h1 : -(3 + border_offset) * SCALING = -(21/10) := by
    norm_num [border_offset, SCALING]
  have h2 : (3 + border_offset) * SCALING = 21/10 := by
    norm_num [border_offset, SCALING]
  rw [yLinspace]
  simp only [Bool.false_eq_true, if_false, h1, h2]

theorem xLinspace_true_eq : xLinspace true = linspace (-1) 1 RESOLUTION := by
  rw [xLinspace]
  simp only [if_true]

theorem yLinspace_true_eq : yLinspace true = linspace (-1) 1 RESOLUTION := by
  rw [yLinspace]
  simp only [if_true]

theorem resolution_pos : 0 < RESOLUTION := by norm_num [RESOLUTION]

theorem resolution_two_le : 2 ≤ RESOLUTION := by norm_num [RESOLUTION]

theorem meshX_false_max : npMax (meshX false) = 3 := by
  rw [meshX, npMax_flatMap_replicate _ RESOLUTION resolution_pos
      (xLinspace_false_eq ▸ linspace_ne_nil _ _ _ resolution_pos),
    xLinspace_false_eq, npMax_linspace _ _ _ resolution_two_le (by norm_num)]

theorem meshX_false_min : npMin (meshX false) = -3 := by
  rw [meshX, npMin_flatMap_replicate _ RESOLUTION resolution_pos
      (xLinspace_false_eq ▸ linspace_ne_nil _ _ _ resolution_pos),
    xLinspace_false_eq, npMin_linspace _ _ _ resolution_two_le (by norm_num)]

theorem meshY_false_max : npMax (meshY false) = 21/10 := by
  rw [meshY, npMax_flatMap_const _ _
      (xLinspace_false_eq ▸ linspace_ne_nil _ _ _ resolution_pos)
      (yLinspace_false_eq ▸ linspace_ne_nil _ _ _ resolution_pos),
    yLinspace_false_eq, npMax_linspace _ _ _ resolution_two_le (by norm_num)]

theorem meshY_false_min : npMin (meshY false) = -(21/10) := by
  rw [meshY, npMin_flatMap_const _ _
      (xLinspace_false_eq ▸ linspace_ne_nil _ _ _ resolution_pos)
      (yLinspace_false_eq ▸ linspace_ne_nil _ _ _ resolution_pos),
    yLinspace_false_eq, npMin_linspace _ _ _ resolution_two_le (by norm_num)]

theorem meshX_true_max : npMax (meshX true) = 1 := by
  rw [meshX, npMax_flatMap_replicate _ RESOLUTION resolution_pos
      (xLinspace_true_eq ▸ linspace_ne_nil _ _ _ resolution_pos),
    xLinspace_true_eq, npMax_linspace _ _ _ resolution_two_le (by norm_num)]

theorem meshX_true_min : npMin (meshX true) = -1 := by
  rw [meshX, npMin_flatMap_replicate _ RESOLUTION resolution_pos
      (xLinspace_true_eq ▸ linspace_ne_nil _ _ _ resolution_pos),
    xLinspace_true_eq, npMin_linspace _ _ _ resolution_two_le (by norm_num)]

theorem meshY_true_max : npMax (meshY true) = 1 := by
  rw [meshY, npMax_flatMap_const _ _
      (xLinspace_true_eq ▸ linspace_ne_nil _ _ _ resolution_pos)
      (yLinspace_true_eq ▸ linspace_ne_nil _ _ _ resolution_pos),
    yLinspace_true_eq, npMax_linspace _ _ _ resolution_two_le (by norm_num)]

theorem meshY_true_min : npMin (meshY true) = -1 := by
  rw [meshY, npMin_flatMap_const _ _
      (xLinspace_true_eq ▸ linspace_ne_nil _ _ _ resolution_pos)
      (yLinspace_true_eq ▸ linspace_ne_nil _ _ _ resolution_pos),
    yLinspace_true_eq, npMin_linspace _ _ _ resolution_two_le (by norm_num)]

/-- C5 counterexample: with the configured half-length `L = field_length =
2.7` and border `b = border_offset = 0.5`, the unnormalized x-axis extent is
`3`, not `L + b = 3.2`; moreover the y-axis extent (`2.1`) differs from the
x-axis extent, so no single `±(L+b)` bound holds along each axis. -/
theorem grid_extent_counterexample :
    npMax (meshX false) = 3 ∧
    field_length + border_offset = 16/5 ∧
    npMax (meshX false) ≠ field_length + border_offset ∧
    npMax (meshY false) = 21/10 ∧
    npMax (meshY false) ≠ npMax (meshX false) := by
  have hL : field_length + border_offset = 16/5 := by
    norm_num [field_length, border_offset, SCALING]
  refine ⟨meshX_false_max, hL, ?_, meshY_false_max, ?_⟩
  · rw [meshX_false_max, hL]
    norm_num
  · rw [meshX_false_max, meshY_false_max]
    norm_num

/-- C5 amended: the coordinate grid generated at `ValuePlotter` construction
is symmetric about 0 on both axes; in unnormalized mode its x-axis spans
exactly `±(4.5 + border_offset) * SCALING = ±3` and its y-axis exactly
`±(3 + border_offset) * SCALING = ±2.1` (the scaling is applied to the sum
of the unscaled half-extent and the border, so the span is not
`±(field_length + border_offset)`); under the normalization flag both axes
span exactly `±1`. -/
theorem grid_symmetric_extents :
    (npMin (meshX false) = -((9/2 + border_offset) * SCALING) ∧
     npMax (meshX false) = (9/2 + border_offset) * SCALING ∧
     npMin (meshY false) = -((3 + border_offset) * SCALING) ∧
     npMax (meshY false) = (3 + border_offset) * SCALING) ∧
    (npMin (meshX true) = -1 ∧ npMax (meshX true) = 1 ∧
     npMin (meshY true) = -1 ∧ npMax (meshY true) = 1) ∧
    (npMin (meshX false) = -(npMax (meshX false)) ∧
     npMin (meshY false) = -(npMax (meshY false))) := by
  have hx : (9/2 + border_offset) * SCALING = 3 := by
    norm_num [border_offset, SCALING]
  have hy : (3 + border_offset) * SCALING = 21/10 := by
    norm_num [border_offset, SCALING]
  refine ⟨⟨?_, ?_, ?_, ?_⟩,
    ⟨meshX_true_min, meshX_true_max, meshY_true_min, meshY_true_max⟩, ?_, ?_⟩
  · rw [hx, meshX_false_min]
  · rw [hx, meshX_false_max]
  · rw [hy, meshY_false_min]
  · rw [hy, meshY_false_max]
  · rw [meshX_false_min, meshX_false_max]
  · rw [meshY_false_min, meshY_false_max]

/- ### The value-function sampler (`compute_all_value_fun`, play.py) -/

/-- Constant `NUM_OF_PLAYERS_TO_VISUALIZE = 3` (play.py line 25). -/
def NUM_OF_PLAYERS_TO_VISUALIZE : ℕ := 3

/-- Constant `VISUALIZE_ENV = 0` (play.py line 28). -/
def VISUALIZE_ENV : ℕ := 0

/-- Constant `PLOT_VALUE_FUNC_LIST` (play.py line 27); only its length matters here. -/
def PLOT_VALUE_FUNC_LIST : List String := ["base_own_pose_w", "ball_pos_w"]

/-- The `actor_slice` tensor of `compute_all_value_fun` (play.py lines
107-110): `arange(NUM_OF_PLAYERS_TO_VISUALIZE) + VISUALIZE_ENV *
num_agents_per_env`, the global indices of the agents whose critic
observations are swept. -/
def actor_slice (num_players visualize_env num_agents_per_env : ℕ) : List ℕ :=
  (List.range num_players).map (fun i => i + visualize_env * num_agents_per_env)

/-- The clamp performed in `ValuePlotter.__init__` (value_plotter.py
line 119): `min(num_of_players_to_visualize, num_agents_per_team)` drives
the subplot layout. -/
def num_players_to_visualize (num_of_players num_agents_per_team : ℕ) : ℕ :=
  min num_of_players num_agents_per_team

/-- One row of `obs_grid` (play.py lines 115-118): the agent's critic
observation with the two coordinate dimensions at `obs_slice[0]` and
`obs_slice[0] + 1` overwritten by the sampled `(x, y)` pair. -/
def obsGridRow (obs : List ℚ) (p : ℕ) (xi yi : ℚ) : List ℚ :=
  (obs.set p xi).set (p + 1) yi

/-- The column `z = critic(obs_grid)` for one `(term, agent)` pair (play.py
lines 115-120): one critic output per grid cell. -/
def valueColumn (critic : List ℚ → ℚ) (obs : List ℚ) (p : ℕ) (x y : List ℚ) : List ℚ :=
  (x.zip y).map (fun c => critic (obsGridRow obs p c.1 c.2))

/-- Model of `compute_all_value_fun` (play.py lines 102-125): outer loop over the
observation terms (`obs_slice` holds each term's slice start), inner loop
over `num_players` agents (`critic_obs j` is the critic observation of the
`j`-th visualized agent after the `actor_slice` selection); the columns are
concatenated in that order, as `torch.cat(..., dim=1)` does. -/
def compute_all_value_fun (critic : List ℚ → ℚ) (critic_obs : ℕ → List ℚ)
    (obs_slice : List ℕ) (num_players : ℕ) (x y : List ℚ) : List (List ℚ) :=
  obs_slice.flatMap (fun p =>
    (List.range num_players).map (fun j => valueColumn critic (critic_obs j) p x y))

/-- C4 counterexample: with a configured count of 3 players to visualize
and 2 agents per team, the sampler sweeps 3 agent indices, while the
renderer's clamped subplot count is `min 3 2 = 2`: the swept set does not
have the clamped size. -/
theorem sampler_sweep_counterexample :
    (actor_slice 3 VISUALIZE_ENV 4).length = 3 ∧
    num_players_to_visualize 3 2 = 2 ∧
    (actor_slice 3 VISUALIZE_ENV 4).length ≠ num_players_to_visualize 3 2 := by
  refine ⟨?_, rfl, ?_⟩ <;> simp [actor_slice, num_players_to_visualize, VISUALIZE_ENV]

/-- C4 amended: the value-function sampler sweeps exactly the configured
count of agent indices (it applies no clamp), while the renderer's subplot
layout uses `min(configured count, agents per team)`; the two sizes agree
when the configured count is at most the agents per team. -/
theorem sampler_sweep_size (cfg ve pe team : ℕ) :
    (actor_slice cfg ve pe).length = cfg ∧
    num_players_to_visualize cfg team = min cfg team := by
  constructor
  · simp [actor_slice]
  · rfl

/-- C7: with `PLOT_VALUE_FUNC_LIST` of length 2 (slice starts `p0`, `p1`),
`NUM_OF_PLAYERS_TO_VISUALIZE = 3` and grid coordinate vectors of length
`RESOLUTION² = 6400`, the sampler produces exactly 6 raw value vectors, in
`(term, agent)` order, each of length `RESOLUTION² = 6400`. -/
theorem compute_all_value_fun_six_columns (critic : List ℚ → ℚ)
    (critic_obs : ℕ → List ℚ) (p0 p1 : ℕ) (x y : List ℚ)
    (hx : x.length = RESOLUTION ^ 2) (hy : y.length = RESOLUTION ^ 2) :
    compute_all_value_fun critic critic_obs [p0, p1] 3 x y =
      [valueColumn critic (critic_obs 0) p0 x y,
       valueColumn critic (critic_obs 1) p0 x y,
       valueColumn critic (critic_obs 2) p0 x y,
       valueColumn critic (critic_obs 0) p1 x y,
       valueColumn critic (critic_obs 1) p1 x y,
       valueColumn critic (critic_obs 2) p1 x y] ∧
    (compute_all_value_fun critic critic_obs [p0, p1] 3 x y).length = 6 ∧
    (∀ col ∈ compute_all_value_fun critic critic_obs [p0, p1] 3 x y,
      col.length = RESOLUTION ^ 2) ∧
    RESOLUTION ^ 2 = 6400 := by
  have hres : RESOLUTION ^ 2 = 6400 := by norm_num [RESOLUTION]
  have hcol : ∀ (obs : List ℚ) (p : ℕ),
      (valueColumn critic obs p x y).length = RESOLUTION ^ 2 := by
    intro obs p
    rw [valueColumn, List.length_map, List.length_zip, hx, hy, min_self]
  have heq : compute_all_value_fun critic critic_obs [p0, p1] 3 x y =
      [valueColumn critic (critic_obs 0) p0 x y,
       valueColumn critic (critic_obs 1) p0 x y,
       valueColumn critic (critic_obs 2) p0 x y,
       valueColumn critic (critic_obs 0) p1 x y,
       valueColumn critic (critic_obs 1) p1 x y,
       valueColumn critic (critic_obs 2) p1 x y] := rfl
  refine ⟨heq, by rw [heq]; rfl, ?_, hres⟩
  intro col hcolmem
  rw [heq] at hcolmem
  simp only [List.mem_cons, List.not_mem_nil, or_false] at hcolmem
  rcases hcolmem with h | h | h | h | h | h <;> rw [h] <;> exact hcol _ _

/-- Witness for C7: zero critic, empty base observations, slice starts 0 and
1, and zero coordinate vectors of length 6400. -/
theorem compute_all_value_fun_six_columns_witness :
    (List.replicate 6400 (0:ℚ)).length = RESOLUTION ^ 2 ∧
    (compute_all_value_fun (fun _ => 0) (fun _ => []) [0, 1] 3
        (List.replicate 6400 (0:ℚ)) (List.replicate 6400 (0:ℚ)) =
      [valueColumn (fun _ => 0) [] 0 (List.replicate 6400 (0:ℚ)) (List.replicate 6400 (0:ℚ)),
       valueColumn (fun _ => 0) [] 0 (List.replicate 6400 (0:ℚ)) (List.replicate 6400 (0:ℚ)),
       valueColumn (fun _ => 0) [] 0 (List.replicate 6400 (0:ℚ)) (List.replicate 6400 (0:ℚ)),
       valueColumn (fun _ => 0) [] 1 (List.replicate 6400 (0:ℚ)) (List.replicate 6400 (0:ℚ)),
       valueColumn (fun _ => 0) [] 1 (List.replicate 6400 (0:ℚ)) (List.replicate 6400 (0:ℚ)),
       valueColumn (fun _ => 0) [] 1 (List.replicate 6400 (0:ℚ)) (List.replicate 6400 (0:ℚ))] ∧
     (compute_all_value_fun (fun _ => 0) (fun _ => []) [0, 1] 3
        (List.replicate 6400 (0:ℚ)) (List.replicate 6400 (0:ℚ))).length = 6 ∧
     (∀ col ∈ compute_all_value_fun (fun _ => 0) (fun _ => []) [0, 1] 3
        (List.replicate 6400 (0:ℚ)) (List.replicate 6400 (0:ℚ)),
       col.length = RESOLUTION ^ 2) ∧
     RESOLUTION ^ 2 = 6400) := by
  have hlen : (List.replicate 6400 (0:ℚ)).length = RESOLUTION ^ 2 := by
    simp only [List.length_replicate, RESOLUTION]
    norm_num
  exact ⟨hlen, compute_all_value_fun_six_columns (fun _ => 0) (fun _ => []) 0 1 _ _ hlen hlen⟩

/- ### The world-state decomposition in `ValuePlotter.plot_value_fun` -/

/-- The `.view(n, 3)` reshape used on the pose slices (value_plotter.py
lines 319-320): split a flat list into consecutive rows of 3. -/
def chunk3 : List ℚ → List (List ℚ)
  | a :: b :: c :: rest => [a, b, c] :: chunk3 rest
  | _ => []

/-- Slice `blue_pos_w = ego_world_state[: 3 * num_agents_per_team].view(n, 3)`
(value_plotter.py line 320). -/
def blue_pos_w (ws : List ℚ) (n : ℕ) : List (List ℚ) :=
  chunk3 (ws.take (3 * n))

/-- Slice `red_pos_w = ego_world_state[3 * num_agents_per_team : -2].view(n, 3)`
(value_plotter.py line 319). -/
def red_pos_w (ws : List ℚ) (n : ℕ) : List (List ℚ) :=
  chunk3 ((ws.take (ws.length - 2)).drop (3 * n))

/-- Slice `ball_pos_w = ego_world_state[-2:]` (value_plotter.py line 321). -/
def ball_pos_w (ws : List ℚ) : List ℚ :=
  ws.drop (ws.length - 2)

theorem chunk3_spec : ∀ (n : ℕ) (l : List ℚ), l.length = 3 * n →
    (chunk3 l).length = n ∧ (∀ r ∈ chunk3 l, r.length = 3) ∧ (chunk3 l).flatten = l
  | 0, l, h => by
    have hl : l = [] := List.length_eq_zero.mp (by omega)
    subst hl
    exact ⟨rfl, by simp [chunk3], rfl⟩
  | n + 1, l, h => by
    cases l with
    | nil => simp at h
    | cons a l1 =>
      cases l1 with
      | nil => simp at h; omega
      | cons b l2 =>
        cases l2 with
        | nil => simp at h; omega
        | cons c rest =>
          have hr : rest.length = 3 * n := by
            simp only [List.length_cons] at h
            omega
          obtain ⟨h1, h2, h3⟩ := chunk3_spec n rest hr
          refine ⟨by simp [chunk3, h1], ?_, by simp [chunk3, h3]⟩
          intro r hrm
          rw [chunk3] at hrm
          rcases List.mem_cons.mp hrm with hre | hre
          · rw [hre]; rfl
          · exact h2 r hre

/-- C8: a world-state vector of length `3*3 + 3*3 + 2 = 20` decomposes in
`plot_value_fun` into blue poses of shape `(3, 3)` from the first 9
entries, red poses of shape `(3, 3)` from the next 9 entries, and the ball
position of shape `(2,)` from the final 2 entries. -/
theorem plot_value_fun_decomposition (ws : List ℚ) (hws : ws.length = 20) :
    (blue_pos_w ws 3).length = 3 ∧ (∀ r ∈ blue_pos_w ws 3, r.length = 3) ∧
    (blue_pos_w ws 3).flatten = ws.take 9 ∧
    (red_pos_w ws 3).length = 3 ∧ (∀ r ∈ red_pos_w ws 3, r.length = 3) ∧
    (red_pos_w ws 3).flatten = (ws.drop 9).take 9 ∧
    (ball_pos_w ws).length = 2 ∧ ball_pos_w ws = ws.drop 18 := by
  have hblue : (ws.take (3 * 3)).length = 3 * 3 := by
    rw [List.length_take]
    omega
  have hredlen : ((ws.take (ws.length - 2)).drop (3 * 3)).length = 3 * 3 := by
    rw [List.length_drop, List.length_take]
    omega
  obtain ⟨b1, b2, b3⟩ := chunk3_spec 3 (ws.take (3 * 3)) hblue
  obtain ⟨r1, r2, r3⟩ := chunk3_spec 3 ((ws.take (ws.length - 2)).drop (3 * 3)) hredlen
  have hredslice : (ws.take (ws.length - 2)).drop (3 * 3) = (ws.drop 9).take 9 := by
    rw [hws]
    norm_num
    rw [List.drop_take]
  refine ⟨b1, b2, ?_, r1, r2, ?_, ?_, ?_⟩
  · rw [blue_pos_w, b3]
  · rw [red_pos_w, r3, hredslice]
  · rw [ball_pos_w, List.length_drop, hws]
  · rw [ball_pos_w, hws]

/-- Witness for C8: the concrete world state `0, 1, …, 19`. -/
theorem plot_value_fun_decomposition_witness :
    ((List.range 20).map (fun i : ℕ => (i : ℚ))).length = 20 ∧
    ((blue_pos_w ((List.range 20).map (fun i : ℕ => (i : ℚ))) 3).length = 3 ∧
     (∀ r ∈ blue_pos_w ((List.range 20).map (fun i : ℕ => (i : ℚ))) 3, r.length = 3) ∧
     (blue_pos_w ((List.range 20).map (fun i : ℕ => (i : ℚ))) 3).flatten =
       ((List.range 20).map (fun i : ℕ => (i : ℚ))).take 9 ∧
     (red_pos_w ((List.range 20).map (fun i : ℕ => (i : ℚ))) 3).length = 3 ∧
     (∀ r ∈ red_pos_w ((List.range 20).map (fun i : ℕ => (i : ℚ))) 3, r.length = 3) ∧
     (red_pos_w ((List.range 20).map (fun i : ℕ => (i : ℚ))) 3).flatten =
       (((List.range 20).map (fun i : ℕ => (i : ℚ))).drop 9).take 9 ∧
     (ball_pos_w ((List.range 20).map (fun i : ℕ => (i : ℚ)))).length = 2 ∧
     ball_pos_w ((List.range 20).map (fun i : ℕ => (i : ℚ))) =
       ((List.range 20).map (fun i : ℕ => (i : ℚ))).drop 18) := by
  have hlen : ((List.range 20).map (fun i : ℕ => (i : ℚ))).length = 20 := by
    rw [List.length_map, List.length_range]
  exact ⟨hlen, plot_value_fun_decomposition _ hlen⟩

/- ### The main simulation loop (`main`, play.py lines 202-235) -/

/-- Constant `VISUALIZATION_INTERVAL = 2` (play.py line 26). -/
def VISUALIZATION_INTERVAL : ℕ := 2

/-- The loop counters of `main`: `timestep` (video frames) and
`sim_step_counter`. -/
structure LoopState where
  timestep : ℕ
  sim_step_counter : ℕ
deriving DecidableEq

/-- How one iteration of the `while simulation_app.is_running()` loop ends. -/
inductive LoopExit
  | videoLength
  | memoryPressure
deriving DecidableEq

/-- Outcome of one loop iteration: continue with the next state, or break;
`pushed` records whether `queue.put((ego_world_state_agent, scaled_values))`
ran during the iteration. -/
inductive IterOut
  | next (s : LoopState) (pushed : Bool)
  | stop (e : LoopExit) (pushed : Bool)
deriving DecidableEq

/-- Projection of the `pushed` flag of an iteration outcome. -/
def pushedOf : IterOut → Bool
  | IterOut.next _ p => p
  | IterOut.stop _ p => p

/-- One iteration of the main loop (play.py lines 202-232): step the
environment; if recording, advance `timestep` and break at the configured
video length; on a visualization-interval step, push one message and break
if `psutil.virtual_memory().percent > 90`; otherwise advance
`sim_step_counter`. `mem_percent` is the reported memory usage for this
iteration; `visualize` is `VISUALIZE_VALUE_FUN`. -/
def loopIter (video : Bool) (video_length : ℕ) (visualize : Bool)
    (mem_percent : ℕ) (s : LoopState) : IterOut :=
  let t := if video then s.timestep + 1 else s.timestep
  if video = true ∧ t = video_length then
    IterOut.stop LoopExit.videoLength false
  else if s.sim_step_counter % VISUALIZATION_INTERVAL = 0 ∧ visualize = true then
    if 90 < mem_percent then IterOut.stop LoopExit.memoryPressure true
    else IterOut.next ⟨t, s.sim_step_counter + 1⟩ true
  else
    IterOut.next ⟨t, s.sim_step_counter + 1⟩ false

/-- Run of the main loop over a finite trace `mems` of per-iteration memory
readings (an exhausted trace models `simulation_app.is_running()` turning
false).  Returns the sequence of items `queue.put` enqueued — every pushed
visualization message is `Option.some ()`, and `Option.none` would be the
`None` shutdown sentinel — together with the break reason, if any.  After
the loop, `main` only calls `env.close()` (play.py line 235): no further
`queue.put` happens on any exit path. -/
def runLoop (video : Bool) (video_length : ℕ) (visualize : Bool) :
    List ℕ → LoopState → List (Option Unit) × Option LoopExit
  | [], _ => ([], Option.none)
  | mem :: rest, s =>
    match loopIter video video_length visualize mem s with
    | IterOut.stop e p => (if p then [Option.some ()] else [], Option.some e)
    | IterOut.next s2 p =>
      let r := runLoop video video_length visualize rest s2
      (if p then Option.some () :: r.1 else r.1, r.2)

/-- C9: on any iteration that pushes a visualization message, a reported
memory usage above 90% makes the loop break with the memory-pressure exit
within that same iteration, and the break is final: however the memory
readings continue, no further iteration runs and only that one message was
pushed. -/
theorem memory_guard_breaks_same_iteration (video : Bool) (video_length : ℕ)
    (mem : ℕ) (s : LoopState)
    (hpush : pushedOf (loopIter video video_length true mem s) = true)
    (hmem : 90 < mem) :
    loopIter video video_length true mem s =
      IterOut.stop LoopExit.memoryPressure true ∧
    ∀ rest : List ℕ, runLoop video video_length true (mem :: rest) s =
      ([Option.some ()], Option.some LoopExit.memoryPressure) := by
  have hiter : loopIter video video_length true mem s =
      IterOut.stop LoopExit.memoryPressure true := by
    rw [loopIter] at hpush ⊢
    by_cases hv : video = true ∧ (if video then s.timestep + 1 else s.timestep) = video_length
    · rw [if_pos hv] at hpush
      exact absurd hpush (by rw [pushedOf]; exact Bool.false_ne_true)
    · rw [if_neg hv] at hpush ⊢
      by_cases hvis : s.sim_step_counter % VISUALIZATION_INTERVAL = 0 ∧ true = true
      · rw [if_pos hvis] at hpush ⊢
        rw [if_pos hmem]
      · rw [if_neg hvis] at hpush
        exact absurd hpush (by rw [pushedOf]; exact Bool.false_ne_true)
  refine ⟨hiter, ?_⟩
  intro rest
  rw [runLoop, hiter]
  rfl

/-- Witness for C9: state `(0, 0)`, no video recording, memory at 91%. -/
theorem memory_guard_breaks_same_iteration_witness :
    pushedOf (loopIter false 0 true 91 ⟨0, 0⟩) = true ∧ 90 < 91 ∧
    (loopIter false 0 true 91 ⟨0, 0⟩ =
       IterOut.stop LoopExit.memoryPressure true ∧
     ∀ rest : List ℕ, runLoop false 0 true (91 :: rest) ⟨0, 0⟩ =
       ([Option.some ()], Option.some LoopExit.memoryPressure)) :=
  ⟨rfl, by norm_num,
    memory_guard_breaks_same_iteration false 0 91 ⟨0, 0⟩ rfl (by norm_num)⟩

/-- C10: on every execution of the producer loop — in particular the
video-length and memory-pressure break paths — the sentinel `None` is never
enqueued: every item the loop puts on the queue is a visualization message. -/
theorem no_sentinel_on_exit (video : Bool) (video_length : ℕ) (visualize : Bool) :
    ∀ (mems : List ℕ) (s : LoopState),
      Option.none ∉ (runLoop video video_length visualize mems s).1
  | [], s => by
    rw [runLoop]
    exact List.not_mem_nil Option.none
  | mem :: rest, s => by
    rw [runLoop]
    cases hit : loopIter video video_length visualize mem s with
    | stop e p =>
      cases p with
      | false => exact List.not_mem_nil Option.none
      | true =>
        intro hmem
        rcases List.mem_singleton.mp hmem with h
        exact Option.noConfusion h
    | next s2 p =>
      cases p with
      | false => exact no_sentinel_on_exit video video_length visualize rest s2
      | true =>
        intro hmem
        rcases List.mem_cons.mp hmem with h | h
        · exact Option.noConfusion h
        · exact no_sentinel_on_exit video video_length visualize rest s2 h

end MarlaDona
